import Mathlib

set_option maxHeartbeats 1000000

/-!
Shallow embedding of the signalk-mosquitto plugin core:
the validation utilities (src/index.ts, class ValidationUtils),
the credential store (SecurityManagerImpl), and the process
supervisor (src/services/process-monitor.ts, ProcessMonitorImpl).

Strings model JavaScript strings; optional string fields are modelled
as String with the empty string standing for an absent field, matching
JavaScript truthiness (both undefined and the empty string are falsy).
File artifacts are modelled as Option (List String): none means the
file has never been written, some gives the lines of the file.
-/

namespace SignalKMosquitto

/-- UserConfig from src/types/interfaces.ts. -/
structure UserConfig where
  username : String
  password : String
  enabled : Bool
deriving DecidableEq

/-- AclConfig from src/types/interfaces.ts. The record consists of
exactly the four fields used by the duplicate check in addAcl. -/
structure AclConfig where
  username : String
  clientid : String
  topic : String
  access : String
deriving DecidableEq

/-- BridgeTopicConfig from src/types/interfaces.ts. -/
structure BridgeTopicConfig where
  pattern : String
  direction : String
  qos : Nat
  localPrefix : String
  remotePrefix : String
deriving DecidableEq

/-- BridgeConfig from src/types/interfaces.ts. -/
structure BridgeConfig where
  id : String
  enabled : Bool
  name : String
  remoteHost : String
  remotePort : Int
  remoteUsername : String
  remotePassword : String
  topics : List BridgeTopicConfig
  tlsEnabled : Bool
  tlsCertPath : String
  tlsKeyPath : String
  tlsCaPath : String
  keepalive : Int
  cleanSession : Bool
  tryPrivate : Bool
deriving DecidableEq

/-- Models the JavaScript test `!s || s.trim() === ''`: a string is
blank iff all of its characters are whitespace (the empty string
included). -/
def isBlank (s : String) : Bool :=
  s.toList.all Char.isWhitespace

namespace ValidationUtils

/-- One character of the class in the regex `/^[a-zA-Z0-9_.-]+$/`. -/
def isUsernameChar (c : Char) : Bool :=
  (('a' ≤ c ∧ c ≤ 'z') : Bool) || (('A' ≤ c ∧ c ≤ 'Z') : Bool) ||
    c.isDigit || c = '_' || c = '.' || c = '-'

/-- ValidationUtils.isValidUsername (src/index.ts): blank rejected,
then the whole string must match `/^[a-zA-Z0-9_.-]+$/` and have length
at most 64. -/
def isValidUsername (u : String) : Bool :=
  if isBlank u then false
  else u.toList.all isUsernameChar && u.toList.length ≤ 64

/-- The character before position i, `pattern[match.index - 1]` in the
source; none models undefined at the start of the string. -/
def charBefore (s : List Char) (i : Nat) : Option Char :=
  if i = 0 then none else s[i - 1]?

/-- The check `before && before !== '/'` (negated): an absent neighbour
is acceptable, a present one must be the separator. -/
def boundaryOk : Option Char → Bool
  | none => true
  | some c => c = '/'

/-- One iteration of the while loop in isValidTopicPattern, at the
position i of a wildcard match of the regex `/[+#]/g`. -/
def wildcardOkAt (s : List Char) (i : Nat) : Bool :=
  if s[i]? = some '+' then boundaryOk (charBefore s i) && boundaryOk s[i + 1]?
  else if s[i]? = some '#' then decide (i = s.length - 1) && boundaryOk (charBefore s i)
  else true

/-- ValidationUtils.isValidTopicPattern (src/index.ts): a blank pattern
is rejected; every occurrence of a wildcard must pass the positional
checks of the while loop. -/
def isValidTopicPattern (p : String) : Bool :=
  if p.toList.all Char.isWhitespace then false
  else (List.range p.toList.length).all (fun i => wildcardOkAt p.toList i)

/-- ValidationUtils.validateUser (src/index.ts). The JavaScript test
`!user.password || user.password.length < 4` collapses to the length
test because the empty string has length 0. -/
def validateUser (u : UserConfig) : List String :=
  (if isBlank u.username then ["Username is required"] else []) ++
  (if u.password.length < 4 then ["Password must be at least 4 characters long"] else []) ++
  (if !(isValidUsername u.username) then ["Username contains invalid characters"] else [])

/-- ValidationUtils.validateAcl (src/index.ts). -/
def validateAcl (a : AclConfig) : List String :=
  (if a.username = "" && a.clientid = "" then ["Either username or client ID must be specified"] else []) ++
  (if isBlank a.topic then ["Topic pattern is required"] else []) ++
  (if !(isValidTopicPattern a.topic) then ["Invalid topic pattern"] else []) ++
  (if a.username ≠ "" && !(isValidUsername a.username) then ["Username contains invalid characters"] else [])

/-- ValidationUtils.isValidPath (src/index.ts): blank rejected, and the
path must contain none of the characters matched by the regex. -/
def isValidPath (p : String) : Bool :=
  if isBlank p then false
  else !(p.toList.any (fun c => c = '<' || c = '>' || c = ':' || c = '"' || c = '|' || c = '?' || c = '*'))

/-- The two error messages pushed for the topic at position idx inside
validateBridge. -/
def bridgeTopicErrors (idx : Nat) (t : BridgeTopicConfig) : List String :=
  (if isBlank t.pattern then ["Topic " ++ toString (idx + 1) ++ ": pattern is required"] else []) ++
  (if !(isValidTopicPattern t.pattern) then ["Topic " ++ toString (idx + 1) ++ ": invalid topic pattern"] else [])

/-- ValidationUtils.validateBridge (src/index.ts): the full list of
violated constraints, in push order. -/
def validateBridge (b : BridgeConfig) : List String :=
  (if isBlank b.name then ["Bridge name is required"] else []) ++
  (if isBlank b.remoteHost then ["Remote host is required"] else []) ++
  (if b.remotePort < 1 || b.remotePort > 65535 then ["Remote port must be between 1 and 65535"] else []) ++
  (if b.keepalive < 5 then ["Keep alive must be at least 5 seconds"] else []) ++
  (if b.topics.length = 0 then ["At least one topic must be configured"] else []) ++
  (b.topics.enum.map (fun p => bridgeTopicErrors p.1 p.2)).flatten ++
  (if b.tlsEnabled && b.tlsCertPath ≠ "" && !(isValidPath b.tlsCertPath) then ["Invalid TLS certificate path"] else []) ++
  (if b.tlsEnabled && b.tlsKeyPath ≠ "" && !(isValidPath b.tlsKeyPath) then ["Invalid TLS key path"] else []) ++
  (if b.tlsEnabled && b.tlsCaPath ≠ "" && !(isValidPath b.tlsCaPath) then ["Invalid TLS CA path"] else [])

end ValidationUtils

namespace Security

/-- The state owned by SecurityManagerImpl (src/unnamed/part_001):
the persisted record files users.json and acls.json, and the two
compiled artifacts passwd and acl. A compiled artifact is none when
the file has never been written, some lines once it has. -/
structure SecurityState where
  users : List UserConfig
  acls : List AclConfig
  passwordFile : Option (List String)
  aclFile : Option (List String)
deriving DecidableEq

/-- A fresh data directory: no records, no compiled files. -/
def emptyState : SecurityState :=
  { users := [], acls := [], passwordFile := none, aclFile := none }

/-- SecurityManagerImpl.hashPassword. The random 12-byte salt and the
PBKDF2-SHA256 derivation are modelled by a caller-supplied function kdf
from the password to the pair (salt base64, hash base64); the
self-describing result string is built exactly as in the source. -/
def hashPassword (kdf : String → String × String) (password : String) : String :=
  "PBKDF2$sha256$10000$" ++ (kdf password).1 ++ "$" ++ (kdf password).2

/-- SecurityManagerImpl.generatePasswordFile: one username:hash line
per enabled user, in input order. -/
def generatePasswordFile (users : List UserConfig) : List String :=
  (users.filter (fun u => u.enabled)).map (fun u => u.username ++ ":" ++ u.password)

/-- SecurityManagerImpl.formatAclAccess. -/
def formatAclAccess (access : String) : String :=
  if access = "read" then "read"
  else if access = "write" then "write"
  else if access = "readwrite" then "readwrite"
  else "read"

/-- The line `topic <access> <pattern>` rendered for one ACL rule. -/
def renderAcl (a : AclConfig) : String :=
  "topic " ++ formatAclAccess a.access ++ " " ++ a.topic

/-- Appending a rule to the group of its key inside a JavaScript Map,
which preserves insertion order: a new key is appended at the end, an
existing key keeps its position and its list grows at the end. -/
def insertGroup (key : String) (a : AclConfig) :
    List (String × List AclConfig) → List (String × List AclConfig)
  | [] => [(key, [a])]
  | (k, l) :: rest =>
    if k = key then (k, l ++ [a]) :: rest else (k, l) :: insertGroup key a rest

/-- The three groups built by the partition loop of generateAclFile. -/
structure AclPartition where
  userGroups : List (String × List AclConfig)
  clientGroups : List (String × List AclConfig)
  globalAcls : List AclConfig
deriving DecidableEq

/-- One iteration of the partition loop: a truthy username wins over a
truthy clientid; a rule with neither is global. -/
def partitionStep (p : AclPartition) (a : AclConfig) : AclPartition :=
  if a.username ≠ "" then { p with userGroups := insertGroup a.username a p.userGroups }
  else if a.clientid ≠ "" then { p with clientGroups := insertGroup a.clientid a p.clientGroups }
  else { p with globalAcls := p.globalAcls ++ [a] }

/-- The partition loop of generateAclFile over the whole rule list. -/
def partitionAcls (acls : List AclConfig) : AclPartition :=
  acls.foldl partitionStep { userGroups := [], clientGroups := [], globalAcls := [] }

/-- The fixed header comment of the compiled acl file. -/
def aclHeaderLines : List String :=
  ["# ACL file generated by SignalK Mosquitto plugin",
   "# Do not edit manually - changes will be overwritten",
   ""]

/-- The global block: emitted only when at least one global rule
exists. -/
def globalBlockLines (gl : List AclConfig) : List String :=
  if gl.length > 0 then "# Global ACLs" :: (gl.map renderAcl ++ [""]) else []

/-- One per-principal block: header line, one topic line per rule,
then the separating blank line. -/
def renderBlock (header : String) (l : List AclConfig) : List String :=
  header :: (l.map renderAcl ++ [""])

/-- SecurityManagerImpl.generateAclFile, as the list of lines of the
compiled file: header comments, global block, user blocks, clientid
blocks. -/
def generateAclFile (acls : List AclConfig) : List String :=
  aclHeaderLines ++ globalBlockLines (partitionAcls acls).globalAcls ++
    ((partitionAcls acls).userGroups.map (fun g => renderBlock ("user " ++ g.1) g.2)).flatten ++
    ((partitionAcls acls).clientGroups.map (fun g => renderBlock ("clientid " ++ g.1) g.2)).flatten

/-- A line of the compiled acl file that introduces a per-principal
block: it begins with `user ` or with `clientid `. -/
def isPrincipalHeader : List Char → Bool
  | 'u' :: 's' :: 'e' :: 'r' :: ' ' :: _ => true
  | 'c' :: 'l' :: 'i' :: 'e' :: 'n' :: 't' :: 'i' :: 'd' :: ' ' :: _ => true
  | _ => false

/-- Replace the first element satisfying p by b, as the source does by
assigning at the index found by findIndex. -/
def setFirstBy {α : Type} (p : α → Bool) (b : α) : List α → List α
  | [] => []
  | x :: xs => if p x then b :: xs else x :: setFirstBy p b xs

/-- The four-field comparison used by the duplicate checks of addAcl,
removeAcl and importSecurityConfig. -/
def aclMatches (a b : AclConfig) : Bool :=
  a.username = b.username && a.clientid = b.clientid && a.topic = b.topic && a.access = b.access

/-- SecurityManagerImpl.addUser: validate, reject an existing
username, hash the password, persist, recompile the password file. -/
def addUser (kdf : String → String × String) (st : SecurityState) (user : UserConfig) :
    Except String SecurityState :=
  if ValidationUtils.validateUser user ≠ [] then
    .error ("User validation failed: " ++ String.intercalate ", " (ValidationUtils.validateUser user))
  else if st.users.any (fun u => u.username = user.username) then
    .error ("User " ++ user.username ++ " already exists")
  else
    let users := st.users ++ [{ user with password := hashPassword kdf user.password }]
    .ok { st with users := users, passwordFile := some (generatePasswordFile users) }

/-- SecurityManagerImpl.removeUser: splice out the record at the first
matching index, persist, recompile the password file. -/
def removeUser (st : SecurityState) (username : String) : Except String SecurityState :=
  if st.users.all (fun u => u.username ≠ username) then
    .error ("User " ++ username ++ " not found")
  else
    let users := st.users.eraseP (fun u => u.username = username)
    .ok { st with users := users, passwordFile := some (generatePasswordFile users) }

/-- SecurityManagerImpl.updateUser: validate, require an existing
record, force the username to the key, hash the password, persist,
recompile the password file. -/
def updateUser (kdf : String → String × String) (st : SecurityState) (username : String)
    (user : UserConfig) : Except String SecurityState :=
  if ValidationUtils.validateUser user ≠ [] then
    .error ("User validation failed: " ++ String.intercalate ", " (ValidationUtils.validateUser user))
  else if st.users.all (fun u => u.username ≠ username) then
    .error ("User " ++ username ++ " not found")
  else
    let u := { user with username := username, password := hashPassword kdf user.password }
    let users := setFirstBy (fun x => x.username = username) u st.users
    .ok { st with users := users, passwordFile := some (generatePasswordFile users) }

/-- SecurityManagerImpl.enableUser: load the stored record, set the
enabled flag, delegate to updateUser. -/
def enableUser (kdf : String → String × String) (st : SecurityState) (username : String) :
    Except String SecurityState :=
  match st.users.find? (fun u => u.username = username) with
  | none => .error ("User " ++ username ++ " not found")
  | some u => updateUser kdf st username { u with enabled := true }

/-- SecurityManagerImpl.disableUser: load the stored record, clear the
enabled flag, delegate to updateUser. -/
def disableUser (kdf : String → String × String) (st : SecurityState) (username : String) :
    Except String SecurityState :=
  match st.users.find? (fun u => u.username = username) with
  | none => .error ("User " ++ username ++ " not found")
  | some u => updateUser kdf st username { u with enabled := false }

/-- SecurityManagerImpl.changePassword: load the stored record, set the
plaintext password, delegate to updateUser. -/
def changePassword (kdf : String → String × String) (st : SecurityState) (username : String)
    (newPassword : String) : Except String SecurityState :=
  match st.users.find? (fun u => u.username = username) with
  | none => .error ("User " ++ username ++ " not found")
  | some u => updateUser kdf st username { u with password := newPassword }

/-- SecurityManagerImpl.addAcl: validate, reject an identical rule,
persist, recompile the acl file. -/
def addAcl (st : SecurityState) (acl : AclConfig) : Except String SecurityState :=
  if ValidationUtils.validateAcl acl ≠ [] then
    .error ("ACL validation failed: " ++ String.intercalate ", " (ValidationUtils.validateAcl acl))
  else if st.acls.any (fun a => aclMatches a acl) then
    .error "Identical ACL rule already exists"
  else
    let acls := st.acls ++ [acl]
    .ok { st with acls := acls, aclFile := some (generateAclFile acls) }

/-- SecurityManagerImpl.removeAcl: splice out the rule at the first
matching index, persist, recompile the acl file. -/
def removeAcl (st : SecurityState) (acl : AclConfig) : Except String SecurityState :=
  if st.acls.all (fun a => !(aclMatches a acl)) then
    .error "ACL rule not found"
  else
    let acls := st.acls.eraseP (fun a => aclMatches a acl)
    .ok { st with acls := acls, aclFile := some (generateAclFile acls) }

/-- The structured content of the JSON produced by exportSecurityConfig
and consumed by importSecurityConfig; JSON serialization round-trips
and is left implicit. -/
structure SecurityExport where
  users : List UserConfig
  acls : List AclConfig
deriving DecidableEq

/-- SecurityManagerImpl.exportSecurityConfig: every password is
replaced by the redaction marker, rules are exported unchanged. -/
def exportSecurityConfig (st : SecurityState) : SecurityExport :=
  { users := st.users.map (fun u => { u with password := "[REDACTED]" }),
    acls := st.acls }

/-- One iteration of the user import loop: skip redacted, skip invalid,
overwrite an existing username only when requested, append a new one;
the counter counts the records actually imported. -/
def importUserStep (overwrite : Bool) (acc : List UserConfig × Nat) (user : UserConfig) :
    List UserConfig × Nat :=
  if user.password = "[REDACTED]" then acc
  else if ValidationUtils.validateUser user ≠ [] then acc
  else if acc.1.any (fun u => u.username = user.username) then
    if overwrite then (setFirstBy (fun u => u.username = user.username) user acc.1, acc.2 + 1)
    else acc
  else (acc.1 ++ [user], acc.2 + 1)

/-- One iteration of the acl import loop: skip invalid, replace a
duplicate only when overwriting, append a new rule; the counter counts
the rules actually imported. -/
def importAclStep (overwrite : Bool) (acc : List AclConfig × Nat) (acl : AclConfig) :
    List AclConfig × Nat :=
  if ValidationUtils.validateAcl acl ≠ [] then acc
  else if acc.1.any (fun a => aclMatches a acl) then
    if overwrite then (setFirstBy (fun a => aclMatches a acl) acl acc.1, acc.2 + 1)
    else acc
  else (acc.1 ++ [acl], acc.2 + 1)

/-- SecurityManagerImpl.importSecurityConfig: run the user loop, write
users.json and the password file only when at least one user was
imported, then the acl loop likewise; return the two counts. -/
def importSecurityConfig (st : SecurityState) (cfg : SecurityExport) (overwrite : Bool) :
    SecurityState × Nat × Nat :=
  let ru := cfg.users.foldl (importUserStep overwrite) (st.users, 0)
  let st1 := if ru.2 > 0 then
    { st with users := ru.1, passwordFile := some (generatePasswordFile ru.1) } else st
  let ra := cfg.acls.foldl (importAclStep overwrite) (st1.acls, 0)
  let st2 := if ra.2 > 0 then
    { st1 with acls := ra.1, aclFile := some (generateAclFile ra.1) } else st1
  (st2, ru.2, ra.2)

/-- The validity data of a generated certificate; the time line is in
years, matching the setFullYear arithmetic of the source. -/
structure CertInfo where
  serialNumber : String
  notBefore : Int
  notAfter : Int
  isCA : Bool
deriving DecidableEq

/-- The certs directory: the two certificate files and the two key
files, each none when absent from disk. -/
structure CertsState where
  caCert : Option CertInfo
  caKeyWritten : Bool
  serverCert : Option CertInfo
  serverKeyWritten : Bool
deriving DecidableEq

/-- A certificate has expired when its notAfter is not after now
(`cert.validity.notAfter <= now` in validateCertificates). -/
def certExpired (now : Int) (c : CertInfo) : Bool :=
  c.notAfter ≤ now

/-- A certificate is not yet valid when its notBefore is after now. -/
def certNotYetValid (now : Int) (c : CertInfo) : Bool :=
  now < c.notBefore

/-- SecurityManagerImpl.generateCertificates: if both certificate
files exist the call returns immediately without writing anything;
otherwise a fresh CA certificate (serial 01, ten years) and server
certificate (serial 02, five years) are generated and all four files
written. The Bool reports whether generation happened. -/
def generateCertificates (now : Int) (st : CertsState) : CertsState × Bool :=
  if st.caCert.isSome ∧ st.serverCert.isSome then (st, false)
  else
    ({ caCert := some { serialNumber := "01", notBefore := now, notAfter := now + 10, isCA := true },
       caKeyWritten := true,
       serverCert := some { serialNumber := "02", notBefore := now, notAfter := now + 5, isCA := false },
       serverKeyWritten := true }, true)

end Security

namespace Monitor

/-- The counters of ProcessMonitorImpl
(src/services/process-monitor.ts) that drive the restart decisions. -/
structure MonitorState where
  restartAttempts : Nat
  consecutiveFailures : Nat
  maxRestartAttempts : Nat
deriving DecidableEq

/-- The state right after start(): both counters zeroed, the retry cap
at its default of 3. -/
def initialMonitor : MonitorState :=
  { restartAttempts := 0, consecutiveFailures := 0, maxRestartAttempts := 3 }

/-- The outcome of one getStatus query inside performStatusCheck:
the broker reported running, reported not running, or the query itself
threw. -/
inductive StatusResult
  | running
  | notRunning
  | checkError
deriving DecidableEq

/-- ProcessMonitorImpl.attemptRestart. The guard re-checks the cap; a
performed attempt increments restartAttempts, asks the manager to
restart, and zeroes consecutiveFailures when the follow-up health
probe succeeds. healthyAfter is that probe result; the returned Bool
reports whether a restart was actually attempted. -/
def attemptRestart (healthyAfter : Bool) (s : MonitorState) : MonitorState × Bool :=
  if s.maxRestartAttempts ≤ s.restartAttempts then (s, false)
  else
    let s1 := { s with restartAttempts := s.restartAttempts + 1 }
    if healthyAfter then ({ s1 with consecutiveFailures := 0 }, true) else (s1, true)

/-- ProcessMonitorImpl.performStatusCheck: not running increments the
failure counter and triggers a restart at two or more consecutive
failures while attempts remain; a thrown check triggers at three or
more; a running status resets both counters only when the failure
counter is positive. -/
def performStatusCheck (r : StatusResult) (healthyAfterRestart : Bool) (s : MonitorState) :
    MonitorState × Bool :=
  match r with
  | .running =>
    if 0 < s.consecutiveFailures then
      ({ s with consecutiveFailures := 0, restartAttempts := 0 }, false)
    else (s, false)
  | .notRunning =>
    let s1 := { s with consecutiveFailures := s.consecutiveFailures + 1 }
    if 2 ≤ s1.consecutiveFailures ∧ s1.restartAttempts < s1.maxRestartAttempts then
      attemptRestart healthyAfterRestart s1
    else (s1, false)
  | .checkError =>
    let s1 := { s with consecutiveFailures := s.consecutiveFailures + 1 }
    if 3 ≤ s1.consecutiveFailures ∧ s1.restartAttempts < s1.maxRestartAttempts then
      attemptRestart healthyAfterRestart s1
    else (s1, false)

/-- ProcessMonitorImpl.performHealthCheck: an unhealthy probe triggers
a restart while attempts remain; a healthy probe resets both counters
only when restartAttempts is positive. -/
def performHealthCheck (healthy : Bool) (healthyAfterRestart : Bool) (s : MonitorState) :
    MonitorState × Bool :=
  if !healthy then
    if s.restartAttempts < s.maxRestartAttempts then attemptRestart healthyAfterRestart s
    else (s, false)
  else
    if 0 < s.restartAttempts then
      ({ s with restartAttempts := 0, consecutiveFailures := 0 }, false)
    else (s, false)

/-- ProcessMonitorImpl.forceRestart: reset restartAttempts to zero,
then attempt. -/
def forceRestart (healthyAfter : Bool) (s : MonitorState) : MonitorState × Bool :=
  attemptRestart healthyAfter { s with restartAttempts := 0 }

/-- One scheduled status check, threading the count of restart
attempts actually performed so far. -/
def statusStep (healthyAfterRestart : Bool) (acc : MonitorState × Nat) (r : StatusResult) :
    MonitorState × Nat :=
  let next := performStatusCheck r healthyAfterRestart acc.1
  (next.1, acc.2 + (if next.2 then 1 else 0))

/-- A sequence of scheduled status checks against a simulated broker,
accumulating how many restart attempts were actually performed. -/
def runStatusChecks (healthyAfterRestart : Bool) (s : MonitorState) (rs : List StatusResult) :
    MonitorState × Nat :=
  rs.foldl (statusStep healthyAfterRestart) (s, 0)

end Monitor

namespace Spec

/-- The position of a single-level wildcard is acceptable per the
claim: immediately bounded by a separator or by the start and end of
the string. -/
def plusPositionOk (s : List Char) (i : Nat) : Prop :=
  (i = 0 ∨ s[i - 1]? = some '/') ∧ (i + 1 = s.length ∨ s[i + 1]? = some '/')

/-- The position of a multi-level wildcard is acceptable per the
claim: the final character of the string, preceded by a separator or
by nothing. -/
def hashPositionOk (s : List Char) (i : Nat) : Prop :=
  i = s.length - 1 ∧ (i = 0 ∨ s[i - 1]? = some '/')

/-- Every wildcard occurrence in the pattern sits at an acceptable
position. -/
def wildcardsWellPlaced (p : String) : Prop :=
  ∀ i, i < p.toList.length →
    (p.toList[i]? = some '+' → plusPositionOk p.toList i) ∧
    (p.toList[i]? = some '#' → hashPositionOk p.toList i)

/-- Modelled from the claim of C5 (a refinement reference, not from
the source): the set of patterns the claim says the validator accepts
exactly, namely the non-empty ones whose wildcards are all well
placed. -/
def claimAcceptsPattern (p : String) : Prop :=
  p ≠ "" ∧ wildcardsWellPlaced p

instance (s : List Char) (i : Nat) : Decidable (plusPositionOk s i) := by
  unfold plusPositionOk; infer_instance

instance (s : List Char) (i : Nat) : Decidable (hashPositionOk s i) := by
  unfold hashPositionOk; infer_instance

instance (p : String) : Decidable (wildcardsWellPlaced p) := by
  unfold wildcardsWellPlaced; infer_instance

instance (p : String) : Decidable (claimAcceptsPattern p) := by
  unfold claimAcceptsPattern; infer_instance

/-- The pattern contains at least one non-whitespace character; this
is what the blank test of the source actually requires, in place of
the plain non-emptiness stated by the claim. -/
def nonBlankPattern (p : String) : Prop :=
  ∃ c ∈ p.toList, c.isWhitespace = false

instance (p : String) : Decidable (nonBlankPattern p) := by
  unfold nonBlankPattern; infer_instance

end Spec

end SignalKMosquitto

namespace SignalKMosquitto

open Monitor

/-- After a successful restart triggered inside a status check, the
running broker is observed with consecutiveFailures already zero, so
the recovery branch of performStatusCheck does not reset
restartAttempts. -/
lemma statusStep_running_stable (hb : Bool) (k : Nat) :
    statusStep hb
      ({ restartAttempts := 1, consecutiveFailures := 0, maxRestartAttempts := 3 }, k)
      StatusResult.running =
      ({ restartAttempts := 1, consecutiveFailures := 0, maxRestartAttempts := 3 }, k) := by
  simp [statusStep, performStatusCheck]

lemma foldl_statusStep_running (hb : Bool) (k : Nat) :
    ∀ n : Nat,
      List.foldl (statusStep hb)
        ({ restartAttempts := 1, consecutiveFailures := 0, maxRestartAttempts := 3 }, k)
        (List.replicate n StatusResult.running) =
        ({ restartAttempts := 1, consecutiveFailures := 0, maxRestartAttempts := 3 }, k)
  | 0 => rfl
  | n + 1 => by
    rw [List.replicate_succ, List.foldl_cons, statusStep_running_stable]
    exact foldl_statusStep_running hb k n

/-- C2 counterexample: on the trace of the claim (not running twice,
then running, the restart succeeding) the supervisor performs exactly
one restart attempt and zeroes consecutiveFailures, but
restartAttempts is 1, not 0, after the status check that observes the
broker running. -/
theorem supervisorRecovery_counterexample :
    runStatusChecks true initialMonitor
      [StatusResult.notRunning, StatusResult.notRunning, StatusResult.running] =
      ({ restartAttempts := 1, consecutiveFailures := 0, maxRestartAttempts := 3 }, 1) ∧
    (runStatusChecks true initialMonitor
      [StatusResult.notRunning, StatusResult.notRunning, StatusResult.running]).1.restartAttempts ≠ 0 := by
  decide

/-- C2 amended: from the freshly started supervisor, two not-running
status checks followed by any number of running checks (the restart
succeeding) perform exactly one restart attempt and end with
consecutiveStatusFailures = 0 but restartAttempts = 1; the running
checks observe consecutiveFailures already zeroed by the successful
restart, so the recovery branch never resets restartAttempts. -/
theorem supervisorRecovery_amended (n : Nat) :
    runStatusChecks true initialMonitor
      ([StatusResult.notRunning, StatusResult.notRunning] ++ List.replicate n StatusResult.running) =
      ({ restartAttempts := 1, consecutiveFailures := 0, maxRestartAttempts := 3 }, 1) := by
  rw [runStatusChecks, List.foldl_append]
  have h2 : List.foldl (statusStep true) (initialMonitor, 0)
      [StatusResult.notRunning, StatusResult.notRunning] =
      ({ restartAttempts := 1, consecutiveFailures := 0, maxRestartAttempts := 3 }, 1) := by decide
  rw [h2, foldl_statusStep_running]

/-- C2 witness for the amended theorem, at three trailing running
checks. -/
theorem supervisorRecovery_amended_witness :
    runStatusChecks true initialMonitor
      ([StatusResult.notRunning, StatusResult.notRunning] ++
        List.replicate 3 StatusResult.running) =
      ({ restartAttempts := 1, consecutiveFailures := 0, maxRestartAttempts := 3 }, 1) :=
  supervisorRecovery_amended 3

/-- C6: once restartAttempts has reached the (positive) cap, neither
the status-check path, in any of its three outcomes, nor the
health-check path performs a restart attempt; forceRestart then resets
restartAttempts to zero before attempting, performs exactly one
attempt, and leaves restartAttempts = 1. -/
theorem restartCapExhaustion (s : MonitorState)
    (h1 : s.restartAttempts = s.maxRestartAttempts)
    (h2 : 0 < s.maxRestartAttempts) :
    (∀ r hb, (performStatusCheck r hb s).2 = false) ∧
    (∀ hl hb, (performHealthCheck hl hb s).2 = false) ∧
    (∀ hb, (forceRestart hb s).2 = true ∧ (forceRestart hb s).1.restartAttempts = 1) := by
  refine ⟨?_, ?_, ?_⟩
  · intro r hb
    cases r
    · simp only [performStatusCheck]
      split <;> rfl
    · simp only [performStatusCheck]
      rw [if_neg]
      simp only [not_and]
      intro _
      simp
      omega
    · simp only [performStatusCheck]
      rw [if_neg]
      simp only [not_and]
      intro _
      simp
      omega
  · intro hl hb
    cases hl
    · simp only [performHealthCheck, Bool.not_false, if_pos]
      rw [if_neg (by omega)]
    · simp only [performHealthCheck, Bool.not_true]
      simp only [if_neg (by simp : ¬(false = true))]
      split <;> rfl
  · intro hb
    have hguard : ¬(({ s with restartAttempts := 0 } : MonitorState).maxRestartAttempts ≤
        ({ s with restartAttempts := 0 } : MonitorState).restartAttempts) := by
      simp
      omega
    cases hb <;> simp [forceRestart, attemptRestart, hguard]

/-- C6 witness at the exhausted default configuration. -/
theorem restartCapExhaustion_witness :
    (performStatusCheck StatusResult.notRunning true
      { restartAttempts := 3, consecutiveFailures := 5, maxRestartAttempts := 3 }).2 = false ∧
    (performHealthCheck false true
      { restartAttempts := 3, consecutiveFailures := 5, maxRestartAttempts := 3 }).2 = false ∧
    (forceRestart true
      { restartAttempts := 3, consecutiveFailures := 5, maxRestartAttempts := 3 }).2 = true ∧
    (forceRestart true
      { restartAttempts := 3, consecutiveFailures := 5, maxRestartAttempts := 3 }).1.restartAttempts = 1 := by
  have h := restartCapExhaustion
    { restartAttempts := 3, consecutiveFailures := 5, maxRestartAttempts := 3 } rfl (by decide)
  exact ⟨h.1 StatusResult.notRunning true, h.2.1 false true, (h.2.2 true).1, (h.2.2 true).2⟩

open Security

lemma insertGroup_mem_key (key : String) (a : AclConfig) :
    ∀ gs : List (String × List AclConfig),
      ∃ g ∈ insertGroup key a gs, g.1 = key ∧ a ∈ g.2
  | [] => ⟨(key, [a]), by simp [insertGroup]⟩
  | (k, l) :: rest => by
    by_cases h : k = key
    · subst h
      exact ⟨(k, l ++ [a]), by simp [insertGroup]⟩
    · obtain ⟨g, hg, hk, hmem⟩ := insertGroup_mem_key key a rest
      exact ⟨g, by simp [insertGroup, h, hg], hk, hmem⟩

lemma insertGroup_mem_mono {gs : List (String × List AclConfig)} (key : String) (a : AclConfig)
    {g0 : String × List AclConfig} {b : AclConfig}
    (hg0 : g0 ∈ gs) (hb : b ∈ g0.2) :
    ∃ g ∈ insertGroup key a gs, g.1 = g0.1 ∧ b ∈ g.2 := by
  induction gs with
  | nil => cases hg0
  | cons hd tl ih =>
    obtain ⟨k, l⟩ := hd
    by_cases h : k = key
    · subst h
      rcases List.mem_cons.mp hg0 with h0 | h0
      · refine ⟨(k, l ++ [a]), by simp [insertGroup], ?_, ?_⟩
        · rw [h0]
        · rw [h0] at hb
          exact List.mem_append_left _ hb
      · exact ⟨g0, by simp [insertGroup, h0], rfl, hb⟩
    · rcases List.mem_cons.mp hg0 with h0 | h0
      · refine ⟨(k, l), by simp [insertGroup, h], ?_, ?_⟩
        · rw [h0]
        · rw [h0] at hb
          exact hb
      · obtain ⟨g, hg, hk, hmem⟩ := ih h0
        exact ⟨g, by simp [insertGroup, h, hg], hk, hmem⟩

lemma insertGroup_sound {gs : List (String × List AclConfig)} {key : String} {a : AclConfig}
    (hgs : ∀ g ∈ gs, ∀ x ∈ g.2, x.username = g.1) (ha : a.username = key) :
    ∀ g ∈ insertGroup key a gs, ∀ x ∈ g.2, x.username = g.1 := by
  induction gs with
  | nil =>
    intro g hg x hx
    simp [insertGroup] at hg
    subst hg
    simp at hx
    subst hx
    exact ha
  | cons hd tl ih =>
    obtain ⟨k, l⟩ := hd
    intro g hg x hx
    by_cases h : k = key
    · subst h
      simp only [insertGroup, if_pos rfl] at hg
      rcases List.mem_cons.mp hg with h0 | h0
      · subst h0
        simp only at hx
        rcases List.mem_append.mp hx with h1 | h1
        · exact hgs (k, l) (by simp) x h1
        · simp at h1
          subst h1
          exact ha
      · exact hgs g (by simp [h0]) x hx
    · simp only [insertGroup, if_neg h] at hg
      rcases List.mem_cons.mp hg with h0 | h0
      · subst h0
        exact hgs (k, l) (by simp) x hx
      · exact ih (fun g2 hg2 => hgs g2 (by simp [hg2])) g h0 x hx

lemma insertGroup_keys (key : String) (a : AclConfig) :
    ∀ gs : List (String × List AclConfig),
      (insertGroup key a gs).map Prod.fst =
        if key ∈ gs.map Prod.fst then gs.map Prod.fst else gs.map Prod.fst ++ [key]
  | [] => by simp [insertGroup]
  | (k, l) :: rest => by
    by_cases h : k = key
    · subst h
      simp [insertGroup]
    · have hrec := insertGroup_keys key a rest
      by_cases hmem : key ∈ rest.map Prod.fst
      · simp only [insertGroup, if_neg h, List.map_cons, hrec, if_pos hmem]
        rw [if_pos]
        simp [hmem]
      · simp only [insertGroup, if_neg h, List.map_cons, hrec, if_neg hmem]
        rw [if_neg]
        · simp
        · rw [List.mem_cons]
          push_neg
          exact ⟨fun hc => h hc.symm, hmem⟩

lemma insertGroup_keys_nodup {gs : List (String × List AclConfig)} (key : String) (a : AclConfig)
    (hnd : (gs.map Prod.fst).Nodup) :
    ((insertGroup key a gs).map Prod.fst).Nodup := by
  rw [insertGroup_keys]
  by_cases hmem : key ∈ gs.map Prod.fst
  · simpa [hmem] using hnd
  · simp only [if_neg hmem]
    simpa [List.nodup_append, hmem] using hnd

lemma partitionStep_sound {p : AclPartition} {a : AclConfig}
    (hp : ∀ g ∈ p.userGroups, ∀ x ∈ g.2, x.username = g.1) :
    ∀ g ∈ (partitionStep p a).userGroups, ∀ x ∈ g.2, x.username = g.1 := by
  unfold partitionStep
  by_cases h : a.username ≠ ""
  · simp only [if_pos h]
    exact insertGroup_sound hp rfl
  · simp only [if_neg h]
    split <;> exact hp

lemma partitionStep_keys_nodup {p : AclPartition} {a : AclConfig}
    (hp : (p.userGroups.map Prod.fst).Nodup) :
    (((partitionStep p a).userGroups).map Prod.fst).Nodup := by
  unfold partitionStep
  by_cases h : a.username ≠ ""
  · simp only [if_pos h]
    exact insertGroup_keys_nodup _ _ hp
  · simp only [if_neg h]
    split <;> exact hp

lemma partitionStep_mem_mono {p : AclPartition} {a : AclConfig} {k : String} {b : AclConfig}
    (hb : ∃ g ∈ p.userGroups, g.1 = k ∧ b ∈ g.2) :
    ∃ g ∈ (partitionStep p a).userGroups, g.1 = k ∧ b ∈ g.2 := by
  obtain ⟨g0, hg0, hk, hmem⟩ := hb
  unfold partitionStep
  by_cases h : a.username ≠ ""
  · simp only [if_pos h]
    obtain ⟨g, hg, hk2, hmem2⟩ := insertGroup_mem_mono a.username a hg0 hmem
    exact ⟨g, hg, hk2.trans hk, hmem2⟩
  · simp only [if_neg h]
    split <;> exact ⟨g0, hg0, hk, hmem⟩

lemma partitionStep_mem_new {p : AclPartition} {a : AclConfig} (h : a.username ≠ "") :
    ∃ g ∈ (partitionStep p a).userGroups, g.1 = a.username ∧ a ∈ g.2 := by
  unfold partitionStep
  simp only [if_pos h]
  exact insertGroup_mem_key a.username a p.userGroups

lemma partitionStep_global_mono {p : AclPartition} {a : AclConfig} {b : AclConfig}
    (hb : b ∈ p.globalAcls) :
    b ∈ (partitionStep p a).globalAcls := by
  unfold partitionStep
  split
  · exact hb
  · split
    · exact hb
    · exact List.mem_append_left _ hb

lemma partitionStep_global_new {p : AclPartition} {a : AclConfig}
    (hu : a.username = "") (hc : a.clientid = "") :
    a ∈ (partitionStep p a).globalAcls := by
  unfold partitionStep
  rw [if_neg (by simp [hu]), if_neg (by simp [hc])]
  simp

lemma foldl_partitionStep_sound (l : List AclConfig) :
    ∀ p : AclPartition, (∀ g ∈ p.userGroups, ∀ x ∈ g.2, x.username = g.1) →
      ∀ g ∈ (l.foldl partitionStep p).userGroups, ∀ x ∈ g.2, x.username = g.1 := by
  induction l with
  | nil => intro p hp; exact hp
  | cons hd tl ih =>
    intro p hp
    rw [List.foldl_cons]
    exact ih _ (partitionStep_sound hp)

lemma foldl_partitionStep_keys_nodup (l : List AclConfig) :
    ∀ p : AclPartition, (p.userGroups.map Prod.fst).Nodup →
      (((l.foldl partitionStep p).userGroups).map Prod.fst).Nodup := by
  induction l with
  | nil => intro p hp; exact hp
  | cons hd tl ih =>
    intro p hp
    rw [List.foldl_cons]
    exact ih _ (partitionStep_keys_nodup hp)

lemma foldl_partitionStep_mem_mono (l : List AclConfig) :
    ∀ p : AclPartition, ∀ {k : String} {b : AclConfig},
      (∃ g ∈ p.userGroups, g.1 = k ∧ b ∈ g.2) →
      ∃ g ∈ (l.foldl partitionStep p).userGroups, g.1 = k ∧ b ∈ g.2 := by
  induction l with
  | nil => intro p _ _ hb; exact hb
  | cons hd tl ih =>
    intro p k b hb
    rw [List.foldl_cons]
    exact ih _ (partitionStep_mem_mono hb)

lemma foldl_partitionStep_mem (l : List AclConfig) :
    ∀ p : AclPartition, ∀ a ∈ l, a.username ≠ "" →
      ∃ g ∈ (l.foldl partitionStep p).userGroups, g.1 = a.username ∧ a ∈ g.2 := by
  induction l with
  | nil => intro p a ha; cases ha
  | cons hd tl ih =>
    intro p a ha hu
    rw [List.foldl_cons]
    rcases List.mem_cons.mp ha with h0 | h0
    · subst h0
      exact foldl_partitionStep_mem_mono tl _ (partitionStep_mem_new hu)
    · exact ih _ a h0 hu

lemma foldl_partitionStep_global_mono (l : List AclConfig) :
    ∀ p : AclPartition, ∀ {b : AclConfig}, b ∈ p.globalAcls →
      b ∈ (l.foldl partitionStep p).globalAcls := by
  induction l with
  | nil => intro p _ hb; exact hb
  | cons hd tl ih =>
    intro p b hb
    rw [List.foldl_cons]
    exact ih _ (partitionStep_global_mono hb)

lemma foldl_partitionStep_global (l : List AclConfig) :
    ∀ p : AclPartition, ∀ a ∈ l, a.username = "" → a.clientid = "" →
      a ∈ (l.foldl partitionStep p).globalAcls := by
  induction l with
  | nil => intro p a ha; cases ha
  | cons hd tl ih =>
    intro p a ha hu hc
    rw [List.foldl_cons]
    rcases List.mem_cons.mp ha with h0 | h0
    · subst h0
      exact foldl_partitionStep_global_mono tl _ (partitionStep_global_new hu hc)
    · exact ih _ a h0 hu hc

lemma partitionAcls_sound (acls : List AclConfig) :
    ∀ g ∈ (partitionAcls acls).userGroups, ∀ x ∈ g.2, x.username = g.1 :=
  foldl_partitionStep_sound acls _ (by simp)

lemma partitionAcls_keys_nodup (acls : List AclConfig) :
    (((partitionAcls acls).userGroups).map Prod.fst).Nodup :=
  foldl_partitionStep_keys_nodup acls _ (by simp)

lemma partitionAcls_mem {acls : List AclConfig} {a : AclConfig}
    (ha : a ∈ acls) (hu : a.username ≠ "") :
    ∃ g ∈ (partitionAcls acls).userGroups, g.1 = a.username ∧ a ∈ g.2 :=
  foldl_partitionStep_mem acls _ a ha hu

lemma partitionAcls_global {acls : List AclConfig} {a : AclConfig}
    (ha : a ∈ acls) (hu : a.username = "") (hc : a.clientid = "") :
    a ∈ (partitionAcls acls).globalAcls :=
  foldl_partitionStep_global acls _ a ha hu hc

lemma renderAcl_toList (a : AclConfig) :
    (renderAcl a).toList =
      't' :: 'o' :: 'p' :: 'i' :: 'c' :: ' ' ::
        ((formatAclAccess a.access).toList ++ ' ' :: a.topic.toList) := by
  simp [renderAcl, String.toList]

lemma renderAcl_not_header (a : AclConfig) :
    isPrincipalHeader (renderAcl a).toList = false := by
  rw [renderAcl_toList]
  rfl

/-- No line of the header comments or of the global block introduces a
per-principal block. -/
lemma pre_no_header (gl : List AclConfig) :
    ∀ l ∈ aclHeaderLines ++ globalBlockLines gl, isPrincipalHeader l.toList = false := by
  intro l hl
  rcases List.mem_append.mp hl with h | h
  · simp only [aclHeaderLines, List.mem_cons, List.not_mem_nil, or_false] at h
    rcases h with h | h | h <;> (subst h; rfl)
  · unfold globalBlockLines at h
    by_cases hgl : gl.length > 0
    · rw [if_pos hgl] at h
      rcases List.mem_cons.mp h with h | h
      · rw [h]; rfl
      · rcases List.mem_append.mp h with h | h
        · obtain ⟨a, _, ha⟩ := List.mem_map.mp h
          rw [← ha]
          exact renderAcl_not_header a
        · simp at h
          rw [h]; rfl
    · rw [if_neg hgl] at h
      cases h

lemma renderAcl_mem_globalBlock {gl : List AclConfig} {a : AclConfig} (ha : a ∈ gl) :
    renderAcl a ∈ globalBlockLines gl := by
  unfold globalBlockLines
  rw [if_pos (by exact List.length_pos.mpr (List.ne_nil_of_mem ha))]
  exact List.mem_cons_of_mem _ (List.mem_append_left _ (List.mem_map_of_mem _ ha))

/-- The compiled acl file renders every global rule inside the global
block, hence the line appears in the file. -/
lemma renderAcl_mem_generateAclFile {acls : List AclConfig} {a : AclConfig}
    (ha : a ∈ acls) (hu : a.username = "") (hc : a.clientid = "") :
    renderAcl a ∈ generateAclFile acls := by
  unfold generateAclFile
  have hmem := renderAcl_mem_globalBlock (partitionAcls_global ha hu hc)
  exact List.mem_append_left _ (List.mem_append_left _ (List.mem_append_right _ hmem))

/-- Any per-principal header line of the compiled file lies past the
header comments and the global block. -/
lemma header_past_pre {acls : List AclConfig} {j : Nat} {l : String}
    (hj : (generateAclFile acls)[j]? = some l)
    (hh : isPrincipalHeader l.toList = true) :
    (aclHeaderLines ++ globalBlockLines (partitionAcls acls).globalAcls).length ≤ j := by
  by_contra hlt
  push_neg at hlt
  have heq : (generateAclFile acls)[j]? =
      (aclHeaderLines ++ globalBlockLines (partitionAcls acls).globalAcls)[j]? := by
    unfold generateAclFile
    rw [List.append_assoc, List.append_assoc, ← List.append_assoc aclHeaderLines]
    exact List.getElem?_append_left hlt
  rw [heq] at hj
  have hmem := List.getElem?_mem hj
  have := pre_no_header (partitionAcls acls).globalAcls l hmem
  rw [hh] at this
  cases this

/-- C4: in the compiled acl file, every rule with a non-empty username
lies in exactly one user group, the group keyed by its username, and
the rendered line of every global rule appears at a strictly earlier
index than any `user` or `clientid` block header. -/
theorem aclGroupingInvariant (acls : List AclConfig) :
    (∀ a ∈ acls, a.username ≠ "" →
      (∃ g, (g ∈ (partitionAcls acls).userGroups ∧ g.1 = a.username ∧ a ∈ g.2) ∧
        ∀ g2, (g2 ∈ (partitionAcls acls).userGroups ∧ a ∈ g2.2) → g2 = g) ∧
      (∀ g ∈ (partitionAcls acls).userGroups, a ∈ g.2 → g.1 = a.username)) ∧
    (∀ (j : Nat) (l : String), (generateAclFile acls)[j]? = some l → isPrincipalHeader l.toList = true →
      ∀ a ∈ acls, a.username = "" → a.clientid = "" →
        ∃ i, i < j ∧ (generateAclFile acls)[i]? = some (renderAcl a)) := by
  constructor
  · intro a ha hu
    have hsound := partitionAcls_sound acls
    obtain ⟨g, hg, hk, hmem⟩ := partitionAcls_mem ha hu
    have hnd := partitionAcls_keys_nodup acls
    refine ⟨⟨g, ⟨hg, hk, hmem⟩, ?_⟩, fun g2 hg2 hmem2 => (hsound g2 hg2 a hmem2).symm⟩
    intro g2 ⟨hg2, hmem2⟩
    have hk2 : g2.1 = a.username := (hsound g2 hg2 a hmem2).symm
    exact List.inj_on_of_nodup_map hnd hg2 hg (hk2.trans hk.symm)
  · intro j l hj hh a ha hu hc
    have hpast := header_past_pre hj hh
    have hmem := renderAcl_mem_globalBlock (partitionAcls_global ha hu hc)
    have hmem2 : renderAcl a ∈ aclHeaderLines ++ globalBlockLines (partitionAcls acls).globalAcls :=
      List.mem_append_right _ hmem
    obtain ⟨i, hilt, hie⟩ := List.getElem_of_mem hmem2
    refine ⟨i, lt_of_lt_of_le hilt hpast, ?_⟩
    have heq : (generateAclFile acls)[i]? =
        (aclHeaderLines ++ globalBlockLines (partitionAcls acls).globalAcls)[i]? := by
      unfold generateAclFile
      rw [List.append_assoc, List.append_assoc, ← List.append_assoc aclHeaderLines]
      exact List.getElem?_append_left hilt
    rw [heq, List.getElem?_eq_getElem hilt, hie]

/-- C4 witness: a store with one per-user rule and one global rule;
the user rule lies in exactly one group and the global rule is
rendered before the `user bob` header at line index 6. -/
theorem aclGroupingInvariant_witness :
    (∃ g, (g ∈ (partitionAcls
        [{ username := "bob", clientid := "", topic := "t", access := "read" },
         { username := "", clientid := "", topic := "g", access := "read" }]).userGroups ∧
        g.1 = "bob" ∧
        ({ username := "bob", clientid := "", topic := "t", access := "read" } : AclConfig) ∈ g.2) ∧
      ∀ g2, (g2 ∈ (partitionAcls
        [{ username := "bob", clientid := "", topic := "t", access := "read" },
         { username := "", clientid := "", topic := "g", access := "read" }]).userGroups ∧
        ({ username := "bob", clientid := "", topic := "t", access := "read" } : AclConfig) ∈ g2.2) →
        g2 = g) ∧
    (∃ i, i < 6 ∧ (generateAclFile
        [{ username := "bob", clientid := "", topic := "t", access := "read" },
         { username := "", clientid := "", topic := "g", access := "read" }])[i]? =
      some (renderAcl { username := "", clientid := "", topic := "g", access := "read" })) := by
  have h := aclGroupingInvariant
    [{ username := "bob", clientid := "", topic := "t", access := "read" },
     { username := "", clientid := "", topic := "g", access := "read" }]
  constructor
  · exact (h.1 { username := "bob", clientid := "", topic := "t", access := "read" }
      (by simp) (by decide)).1
  · exact h.2 6 "user bob" (by decide) (by decide)
      { username := "", clientid := "", topic := "g", access := "read" } (by simp) rfl rfl

/-- C9: a rule with neither username nor clientid fails validateAcl
with the dedicated message, addAcl on it can only throw (so the
persisted rule set and the compiled files stay as they were), yet the
acl compiler does render such a rule, inside the global block, whenever
it is handed one. -/
theorem globalAclRejected (st : SecurityState) (a : AclConfig)
    (hu : a.username = "") (hc : a.clientid = "") :
    "Either username or client ID must be specified" ∈ ValidationUtils.validateAcl a ∧
    ValidationUtils.validateAcl a ≠ [] ∧
    (∀ st2, addAcl st a ≠ Except.ok st2) ∧
    (∀ acls, a ∈ acls → renderAcl a ∈ generateAclFile acls) := by
  have hmem : "Either username or client ID must be specified" ∈ ValidationUtils.validateAcl a := by
    unfold ValidationUtils.validateAcl
    rw [if_pos (by simp [hu, hc])]
    simp
  have hne : ValidationUtils.validateAcl a ≠ [] := List.ne_nil_of_mem hmem
  refine ⟨hmem, hne, ?_, ?_⟩
  · intro st2
    unfold addAcl
    rw [if_pos hne]
    simp
  · intro acls ha
    exact renderAcl_mem_generateAclFile ha hu hc

/-- C9 witness at a concrete global rule against the empty store. -/
theorem globalAclRejected_witness :
    "Either username or client ID must be specified" ∈
      ValidationUtils.validateAcl { username := "", clientid := "", topic := "sensors/#", access := "read" } ∧
    (∀ st2, addAcl emptyState
      { username := "", clientid := "", topic := "sensors/#", access := "read" } ≠ Except.ok st2) ∧
    renderAcl { username := "", clientid := "", topic := "sensors/#", access := "read" } ∈
      generateAclFile [{ username := "", clientid := "", topic := "sensors/#", access := "read" }] := by
  have h := globalAclRejected emptyState
    { username := "", clientid := "", topic := "sensors/#", access := "read" } rfl rfl
  exact ⟨h.1, h.2.2.1, h.2.2.2 _ (by simp)⟩

/-- C7: a bridge with empty name, empty remote host and no topics
collects all three corresponding violations, which are pairwise
distinct, so the validator returns at least three messages rather than
stopping at the first. -/
theorem bridgeValidatorComplete (b : BridgeConfig)
    (hn : b.name = "") (hh : b.remoteHost = "") (ht : b.topics = []) :
    "Bridge name is required" ∈ ValidationUtils.validateBridge b ∧
    "Remote host is required" ∈ ValidationUtils.validateBridge b ∧
    "At least one topic must be configured" ∈ ValidationUtils.validateBridge b ∧
    3 ≤ (ValidationUtils.validateBridge b).length ∧
    ("Bridge name is required" ≠ "Remote host is required" ∧
      "Bridge name is required" ≠ "At least one topic must be configured" ∧
      "Remote host is required" ≠ "At least one topic must be configured") := by
  have hb1 : isBlank b.name = true := by rw [hn]; rfl
  have hb2 : isBlank b.remoteHost = true := by rw [hh]; rfl
  have hb3 : b.topics.length = 0 := by rw [ht]; rfl
  refine ⟨?_, ?_, ?_, ?_, by decide⟩
  all_goals
    unfold ValidationUtils.validateBridge
    rw [if_pos hb1, if_pos hb2, if_pos hb3, ht]
  · simp
  · simp
  · simp
  · simp only [List.length_append]
    simp
    omega

/-- C7 witness at a concrete fully-defaulted bridge. -/
theorem bridgeValidatorComplete_witness :
    "Bridge name is required" ∈ ValidationUtils.validateBridge
      { id := "b1", enabled := true, name := "", remoteHost := "", remotePort := 1883,
        remoteUsername := "", remotePassword := "", topics := [], tlsEnabled := false,
        tlsCertPath := "", tlsKeyPath := "", tlsCaPath := "", keepalive := 60,
        cleanSession := true, tryPrivate := false } ∧
    3 ≤ (ValidationUtils.validateBridge
      { id := "b1", enabled := true, name := "", remoteHost := "", remotePort := 1883,
        remoteUsername := "", remotePassword := "", topics := [], tlsEnabled := false,
        tlsCertPath := "", tlsKeyPath := "", tlsCaPath := "", keepalive := 60,
        cleanSession := true, tryPrivate := false }).length := by
  have h := bridgeValidatorComplete
    { id := "b1", enabled := true, name := "", remoteHost := "", remotePort := 1883,
      remoteUsername := "", remotePassword := "", topics := [], tlsEnabled := false,
      tlsCertPath := "", tlsKeyPath := "", tlsCaPath := "", keepalive := 60,
      cleanSession := true, tryPrivate := false } rfl rfl rfl
  exact ⟨h.1, h.2.2.2.1⟩

/-- C3 counterexample: with both certificate files present on disk but
both certificates expired at the current time, generateCertificates
returns without regenerating anything, contradicting the claim that an
expired component triggers regeneration. -/
theorem certGeneration_counterexample :
    generateCertificates 20
      { caCert := some { serialNumber := "01", notBefore := 0, notAfter := 10, isCA := true },
        caKeyWritten := true,
        serverCert := some { serialNumber := "02", notBefore := 0, notAfter := 5, isCA := false },
        serverKeyWritten := true } =
      ({ caCert := some { serialNumber := "01", notBefore := 0, notAfter := 10, isCA := true },
         caKeyWritten := true,
         serverCert := some { serialNumber := "02", notBefore := 0, notAfter := 5, isCA := false },
         serverKeyWritten := true }, false) ∧
    certExpired 20 { serialNumber := "01", notBefore := 0, notAfter := 10, isCA := true } = true ∧
    certExpired 20 { serialNumber := "02", notBefore := 0, notAfter := 5, isCA := false } = true := by
  decide

/-- C3 amended: generateCertificates regenerates exactly when one of
the two certificate files is absent, regardless of validity windows;
when both are present, expired or not, the call is a no-op, and when
it does generate, the fresh CA (ten years) and server (five years)
certificates are within their validity windows at generation time. -/
theorem certGeneration_amended (now : Int) (st : CertsState) :
    (st.caCert.isSome = true → st.serverCert.isSome = true →
      generateCertificates now st = (st, false)) ∧
    (st.caCert = none ∨ st.serverCert = none →
      generateCertificates now st =
        ({ caCert := some { serialNumber := "01", notBefore := now, notAfter := now + 10, isCA := true },
           caKeyWritten := true,
           serverCert := some { serialNumber := "02", notBefore := now, notAfter := now + 5, isCA := false },
           serverKeyWritten := true }, true) ∧
      certExpired now { serialNumber := "01", notBefore := now, notAfter := now + 10, isCA := true } = false ∧
      certNotYetValid now { serialNumber := "01", notBefore := now, notAfter := now + 10, isCA := true } = false ∧
      certExpired now { serialNumber := "02", notBefore := now, notAfter := now + 5, isCA := false } = false ∧
      certNotYetValid now { serialNumber := "02", notBefore := now, notAfter := now + 5, isCA := false } = false) := by
  constructor
  · intro h1 h2
    unfold generateCertificates
    rw [if_pos ⟨h1, h2⟩]
  · intro h
    unfold generateCertificates
    rw [if_neg (by rcases h with h | h <;> simp [h])]
    refine ⟨rfl, ?_, ?_, ?_, ?_⟩
    all_goals
      simp only [certExpired, certNotYetValid, decide_eq_false_iff_not]
      omega

/-- C3 witness for the amended theorem: the no-op branch at a
present-but-expired bundle and the generation branch at an empty certs
directory. -/
theorem certGeneration_amended_witness :
    generateCertificates 20
      { caCert := some { serialNumber := "01", notBefore := 0, notAfter := 10, isCA := true },
        caKeyWritten := true,
        serverCert := some { serialNumber := "02", notBefore := 0, notAfter := 5, isCA := false },
        serverKeyWritten := true } =
      ({ caCert := some { serialNumber := "01", notBefore := 0, notAfter := 10, isCA := true },
         caKeyWritten := true,
         serverCert := some { serialNumber := "02", notBefore := 0, notAfter := 5, isCA := false },
         serverKeyWritten := true }, false) ∧
    generateCertificates 7
      { caCert := none, caKeyWritten := false, serverCert := none, serverKeyWritten := false } =
      ({ caCert := some { serialNumber := "01", notBefore := 7, notAfter := 17, isCA := true },
         caKeyWritten := true,
         serverCert := some { serialNumber := "02", notBefore := 7, notAfter := 12, isCA := false },
         serverKeyWritten := true }, true) := by
  constructor
  · exact (certGeneration_amended 20
      { caCert := some { serialNumber := "01", notBefore := 0, notAfter := 10, isCA := true },
        caKeyWritten := true,
        serverCert := some { serialNumber := "02", notBefore := 0, notAfter := 5, isCA := false },
        serverKeyWritten := true }).1 rfl rfl
  · exact ((certGeneration_amended 7
      { caCert := none, caKeyWritten := false, serverCert := none,
        serverKeyWritten := false }).2 (Or.inl rfl)).1

lemma boundaryOk_charBefore_iff (s : List Char) (i : Nat) (hi : i < s.length) :
    ValidationUtils.boundaryOk (ValidationUtils.charBefore s i) = true ↔
      (i = 0 ∨ s[i - 1]? = some '/') := by
  unfold ValidationUtils.charBefore
  by_cases h : i = 0
  · simp [h, ValidationUtils.boundaryOk]
  · rw [if_neg h, List.getElem?_eq_getElem (show i - 1 < s.length by omega)]
    simp [ValidationUtils.boundaryOk, h]

lemma boundaryOk_after_iff (s : List Char) (i : Nat) (hi : i < s.length) :
    ValidationUtils.boundaryOk s[i + 1]? = true ↔
      (i + 1 = s.length ∨ s[i + 1]? = some '/') := by
  by_cases h : i + 1 < s.length
  · rw [List.getElem?_eq_getElem h]
    simp [ValidationUtils.boundaryOk, show i + 1 ≠ s.length by omega]
  · rw [List.getElem?_eq_none (show s.length ≤ i + 1 by omega)]
    simp [ValidationUtils.boundaryOk, show i + 1 = s.length by omega]

lemma wildcardOkAt_iff (s : List Char) (i : Nat) (hi : i < s.length) :
    ValidationUtils.wildcardOkAt s i = true ↔
      ((s[i]? = some '+' → Spec.plusPositionOk s i) ∧
        (s[i]? = some '#' → Spec.hashPositionOk s i)) := by
  unfold ValidationUtils.wildcardOkAt
  by_cases hp : s[i]? = some '+'
  · have hh : ¬s[i]? = some '#' := by rw [hp]; simp
    rw [if_pos hp]
    simp only [hp, hh, Bool.and_eq_true, Spec.plusPositionOk,
      boundaryOk_charBefore_iff s i hi, boundaryOk_after_iff s i hi]
    simp
  · rw [if_neg hp]
    by_cases hh : s[i]? = some '#'
    · rw [if_pos hh]
      simp only [hp, hh, Bool.and_eq_true, Spec.hashPositionOk,
        boundaryOk_charBefore_iff s i hi, decide_eq_true_eq]
      simp
    · rw [if_neg hh]
      simp [hp, hh]

/-- C5 counterexample: the single-space pattern is non-empty and
contains no wildcard at all, so the claim characterization accepts it,
but isValidTopicPattern rejects it because the source tests
`pattern.trim() === ''`, not mere non-emptiness. -/
theorem topicPatternClaim_counterexample :
    Spec.claimAcceptsPattern " " ∧ ValidationUtils.isValidTopicPattern " " = false := by
  decide

/-- C5 amended: the validator accepts exactly the patterns containing
at least one non-whitespace character whose wildcards all sit at
acceptable positions: every plus bounded by separators or the string
ends, every hash final and its own trailing segment; in particular the
three patterns named by the claim behave as stated. -/
theorem topicPatternCharacterization :
    (∀ p : String, ValidationUtils.isValidTopicPattern p = true ↔
      (Spec.nonBlankPattern p ∧ Spec.wildcardsWellPlaced p)) ∧
    ValidationUtils.isValidTopicPattern "vessels/+/navigation/#" = true ∧
    ValidationUtils.isValidTopicPattern "vessels/+x" = false ∧
    ValidationUtils.isValidTopicPattern "a/#/b" = false := by
  refine ⟨?_, by decide, by decide, by decide⟩
  intro p
  unfold ValidationUtils.isValidTopicPattern
  by_cases hb : p.toList.all Char.isWhitespace = true
  · rw [if_pos hb]
    rw [List.all_eq_true] at hb
    constructor
    · intro h
      cases h
    · rintro ⟨⟨c, hc, hw⟩, _⟩
      rw [hb c hc] at hw
      cases hw
  · rw [if_neg hb]
    rw [List.all_eq_true]
    constructor
    · intro h
      refine ⟨?_, ?_⟩
      · rw [List.all_eq_true] at hb
        push_neg at hb
        obtain ⟨c, hc, hw⟩ := hb
        exact ⟨c, hc, by simp at hw; exact hw⟩
      · intro i hi
        exact (wildcardOkAt_iff p.toList i hi).mp (h i (List.mem_range.mpr hi))
    · rintro ⟨_, h⟩ i hi
      have hi2 := List.mem_range.mp hi
      exact (wildcardOkAt_iff p.toList i hi2).mpr (h i hi2)

/-- C5 witness for the amended characterization, instantiated at an
accepted pattern. -/
theorem topicPatternCharacterization_witness :
    ValidationUtils.isValidTopicPattern "a/+" = true ∧
    Spec.nonBlankPattern "a/+" ∧ Spec.wildcardsWellPlaced "a/+" := by
  have h := topicPatternCharacterization.1 "a/+"
  have hv : ValidationUtils.isValidTopicPattern "a/+" = true := by decide
  exact ⟨hv, (h.mp hv).1, (h.mp hv).2⟩

lemma updateUser_ok {kdf : String → String × String} {st : SecurityState} {n : String}
    {u : UserConfig} {st2 : SecurityState} (h : updateUser kdf st n u = Except.ok st2) :
    st2.users = setFirstBy (fun x => x.username = n)
      { u with username := n, password := hashPassword kdf u.password } st.users ∧
    st2.passwordFile = some (generatePasswordFile st2.users) ∧
    st2.acls = st.acls ∧ st2.aclFile = st.aclFile := by
  simp only [updateUser] at h
  split at h
  · exact absurd h (by simp)
  · split at h
    · exact absurd h (by simp)
    · rw [Except.ok.injEq] at h
      subst h
      exact ⟨rfl, rfl, rfl, rfl⟩

/-- C1 amended: every successful user mutation recompiles the
credential file from the post-mutation user set but leaves the acl
file and the rule set untouched, and every successful ACL mutation
recompiles the acl file from the post-mutation rule set but leaves the
credential file and the user set untouched; no mutation recompiles the
other artifact. -/
theorem artifactRecompilation_amended (kdf : String → String × String) (st st2 : SecurityState) :
    (∀ u, addUser kdf st u = Except.ok st2 →
      st2.passwordFile = some (generatePasswordFile st2.users) ∧
      st2.aclFile = st.aclFile ∧ st2.acls = st.acls) ∧
    (∀ n, removeUser st n = Except.ok st2 →
      st2.passwordFile = some (generatePasswordFile st2.users) ∧
      st2.aclFile = st.aclFile ∧ st2.acls = st.acls) ∧
    (∀ n u, updateUser kdf st n u = Except.ok st2 →
      st2.passwordFile = some (generatePasswordFile st2.users) ∧
      st2.aclFile = st.aclFile ∧ st2.acls = st.acls) ∧
    (∀ n, enableUser kdf st n = Except.ok st2 →
      st2.passwordFile = some (generatePasswordFile st2.users) ∧
      st2.aclFile = st.aclFile ∧ st2.acls = st.acls) ∧
    (∀ n, disableUser kdf st n = Except.ok st2 →
      st2.passwordFile = some (generatePasswordFile st2.users) ∧
      st2.aclFile = st.aclFile ∧ st2.acls = st.acls) ∧
    (∀ n pw, changePassword kdf st n pw = Except.ok st2 →
      st2.passwordFile = some (generatePasswordFile st2.users) ∧
      st2.aclFile = st.aclFile ∧ st2.acls = st.acls) ∧
    (∀ a, addAcl st a = Except.ok st2 →
      st2.aclFile = some (generateAclFile st2.acls) ∧
      st2.passwordFile = st.passwordFile ∧ st2.users = st.users) ∧
    (∀ a, removeAcl st a = Except.ok st2 →
      st2.aclFile = some (generateAclFile st2.acls) ∧
      st2.passwordFile = st.passwordFile ∧ st2.users = st.users) := by
  refine ⟨?_, ?_, ?_, ?_, ?_, ?_, ?_, ?_⟩
  · intro u h
    simp only [addUser] at h
    split at h
    · exact absurd h (by simp)
    · split at h
      · exact absurd h (by simp)
      · rw [Except.ok.injEq] at h
        subst h
        exact ⟨rfl, rfl, rfl⟩
  · intro n h
    simp only [removeUser] at h
    split at h
    · exact absurd h (by simp)
    · rw [Except.ok.injEq] at h
      subst h
      exact ⟨rfl, rfl, rfl⟩
  · intro n u h
    obtain ⟨_, h2, h3, h4⟩ := updateUser_ok h
    exact ⟨h2, h4, h3⟩
  · intro n h
    simp only [enableUser] at h
    cases heq : st.users.find? (fun x => x.username = n) with
    | none => rw [heq] at h; exact absurd h (by simp)
    | some u0 =>
      rw [heq] at h
      obtain ⟨_, h2, h3, h4⟩ := updateUser_ok h
      exact ⟨h2, h4, h3⟩
  · intro n h
    simp only [disableUser] at h
    cases heq : st.users.find? (fun x => x.username = n) with
    | none => rw [heq] at h; exact absurd h (by simp)
    | some u0 =>
      rw [heq] at h
      obtain ⟨_, h2, h3, h4⟩ := updateUser_ok h
      exact ⟨h2, h4, h3⟩
  · intro n pw h
    simp only [changePassword] at h
    cases heq : st.users.find? (fun x => x.username = n) with
    | none => rw [heq] at h; exact absurd h (by simp)
    | some u0 =>
      rw [heq] at h
      obtain ⟨_, h2, h3, h4⟩ := updateUser_ok h
      exact ⟨h2, h4, h3⟩
  · intro a h
    simp only [addAcl] at h
    split at h
    · exact absurd h (by simp)
    · split at h
      · exact absurd h (by simp)
      · rw [Except.ok.injEq] at h
        subst h
        exact ⟨rfl, rfl, rfl⟩
  · intro a h
    simp only [removeAcl] at h
    split at h
    · exact absurd h (by simp)
    · rw [Except.ok.injEq] at h
      subst h
      exact ⟨rfl, rfl, rfl⟩

/-- C1 counterexample: from a fresh store (no compiled
files on disk), addUser succeeds and recompiles the credential file,
but the acl file is still absent, so it has not been freshly
recompiled from the post-mutation rule set before the call returned. -/
theorem artifactRecompilation_counterexample :
    addUser (fun _ => ("c2FsdA", "aGFzaA")) emptyState
      { username := "alice", password := "secret", enabled := true } =
      Except.ok
        { users := [{ username := "alice", password := "PBKDF2$sha256$10000$c2FsdA$aGFzaA", enabled := true }],
          acls := [],
          passwordFile := some ["alice:PBKDF2$sha256$10000$c2FsdA$aGFzaA"],
          aclFile := none } ∧
    ({ users := [{ username := "alice", password := "PBKDF2$sha256$10000$c2FsdA$aGFzaA", enabled := true }],
       acls := [],
       passwordFile := some ["alice:PBKDF2$sha256$10000$c2FsdA$aGFzaA"],
       aclFile := none } : SecurityState).aclFile ≠
      some (generateAclFile
        ({ users := [{ username := "alice", password := "PBKDF2$sha256$10000$c2FsdA$aGFzaA", enabled := true }],
           acls := [],
           passwordFile := some ["alice:PBKDF2$sha256$10000$c2FsdA$aGFzaA"],
           aclFile := none } : SecurityState).acls) := by
  exact ⟨rfl, by simp⟩

/-- C1 witness for the amended theorem, at a concrete addUser call. -/
theorem artifactRecompilation_amended_witness :
    ({ users := [{ username := "alice", password := "PBKDF2$sha256$10000$c2FsdA$aGFzaA", enabled := true }],
       acls := [],
       passwordFile := some ["alice:PBKDF2$sha256$10000$c2FsdA$aGFzaA"],
       aclFile := none } : SecurityState).passwordFile =
      some (generatePasswordFile
        ({ users := [{ username := "alice", password := "PBKDF2$sha256$10000$c2FsdA$aGFzaA", enabled := true }],
           acls := [],
           passwordFile := some ["alice:PBKDF2$sha256$10000$c2FsdA$aGFzaA"],
           aclFile := none } : SecurityState).users) ∧
    ({ users := [{ username := "alice", password := "PBKDF2$sha256$10000$c2FsdA$aGFzaA", enabled := true }],
       acls := [],
       passwordFile := some ["alice:PBKDF2$sha256$10000$c2FsdA$aGFzaA"],
       aclFile := none } : SecurityState).aclFile = emptyState.aclFile ∧
    ({ users := [{ username := "alice", password := "PBKDF2$sha256$10000$c2FsdA$aGFzaA", enabled := true }],
       acls := [],
       passwordFile := some ["alice:PBKDF2$sha256$10000$c2FsdA$aGFzaA"],
       aclFile := none } : SecurityState).acls = emptyState.acls :=
  (artifactRecompilation_amended (fun _ => ("c2FsdA", "aGFzaA")) emptyState _).1
    { username := "alice", password := "secret", enabled := true } rfl

lemma find?_setFirstBy {α : Type} (p : α → Bool) (b : α) (hb : p b = true) :
    ∀ l : List α, (∃ x ∈ l, p x = true) → (setFirstBy p b l).find? p = some b := by
  intro l
  induction l with
  | nil => rintro ⟨x, hx, _⟩; cases hx
  | cons hd tl ih =>
    rintro ⟨x, hx, hpx⟩
    by_cases hhd : p hd = true
    · unfold setFirstBy
      rw [if_pos hhd]
      exact List.find?_cons_of_pos _ hb
    · unfold setFirstBy
      rw [if_neg hhd, List.find?_cons_of_neg _ hhd]
      apply ih
      rcases List.mem_cons.mp hx with h0 | h0
      · subst h0; exact absurd hpx hhd
      · exact ⟨x, h0, hpx⟩

lemma updateUser_result (kdf : String → String × String) (st : SecurityState) (n : String)
    (user : UserConfig)
    (hval : ValidationUtils.validateUser user = [])
    (hex : ∃ x ∈ st.users, x.username = n) :
    updateUser kdf st n user = Except.ok { st with
      users := setFirstBy (fun x => x.username = n)
        { user with username := n, password := hashPassword kdf user.password } st.users,
      passwordFile := some (generatePasswordFile (setFirstBy (fun x => x.username = n)
        { user with username := n, password := hashPassword kdf user.password } st.users)) } := by
  unfold updateUser
  rw [if_neg (fun hne => hne hval), if_neg ?hall]
  case hall =>
    rw [List.all_eq_true]
    intro hall
    obtain ⟨x, hx, hxn⟩ := hex
    have := hall x hx
    simp [hxn] at this

/-- C10: for a stored user whose password field already holds the
self-describing PBKDF2 hash, enableUser and disableUser load the
record, flip the enabled flag and delegate to updateUser, which hashes
the password field again, so the persisted password value becomes a
PBKDF2 hash of the previously stored hash string rather than the hash
derived from the plaintext password. -/
theorem enableDisableRehashesHash (kdf kdf0 : String → String × String) (plain : String)
    (st : SecurityState) (u : UserConfig)
    (hfind : st.users.find? (fun x => x.username = u.username) = some u)
    (hpw : u.password = hashPassword kdf0 plain)
    (hval : ValidationUtils.validateUser u = []) :
    (∃ st2, enableUser kdf st u.username = Except.ok st2 ∧
      st2.users.find? (fun x => x.username = u.username) =
        some { username := u.username,
               password := hashPassword kdf (hashPassword kdf0 plain), enabled := true }) ∧
    (∃ st2, disableUser kdf st u.username = Except.ok st2 ∧
      st2.users.find? (fun x => x.username = u.username) =
        some { username := u.username,
               password := hashPassword kdf (hashPassword kdf0 plain), enabled := false }) := by
  obtain ⟨un, pw, en⟩ := u
  simp only at hfind hpw hval ⊢
  subst hpw
  have humem : (⟨un, hashPassword kdf0 plain, en⟩ : UserConfig) ∈ st.users :=
    List.mem_of_find?_eq_some hfind
  have hex : ∃ x ∈ st.users, x.username = un :=
    ⟨⟨un, hashPassword kdf0 plain, en⟩, humem, rfl⟩
  have hexb : ∃ x ∈ st.users, (fun x : UserConfig => decide (x.username = un)) x = true :=
    ⟨⟨un, hashPassword kdf0 plain, en⟩, humem, by simp⟩
  constructor
  · refine ⟨{ st with
      users := setFirstBy (fun x => x.username = un)
        ⟨un, hashPassword kdf (hashPassword kdf0 plain), true⟩ st.users,
      passwordFile := some (generatePasswordFile (setFirstBy (fun x => x.username = un)
        ⟨un, hashPassword kdf (hashPassword kdf0 plain), true⟩ st.users)) }, ?_, ?_⟩
    · show enableUser kdf st un = _
      unfold enableUser
      rw [hfind]
      exact updateUser_result kdf st un ⟨un, hashPassword kdf0 plain, true⟩ hval hex
    · exact find?_setFirstBy _ _ (by simp) st.users hexb
  · refine ⟨{ st with
      users := setFirstBy (fun x => x.username = un)
        ⟨un, hashPassword kdf (hashPassword kdf0 plain), false⟩ st.users,
      passwordFile := some (generatePasswordFile (setFirstBy (fun x => x.username = un)
        ⟨un, hashPassword kdf (hashPassword kdf0 plain), false⟩ st.users)) }, ?_, ?_⟩
    · show disableUser kdf st un = _
      unfold disableUser
      rw [hfind]
      exact updateUser_result kdf st un ⟨un, hashPassword kdf0 plain, false⟩ hval hex
    · exact find?_setFirstBy _ _ (by simp) st.users hexb

/-- C10 witness at a concrete one-user store. -/
theorem enableDisableRehashesHash_witness :
    ∃ st2, enableUser (fun _ => ("A", "B")) { users := [{ username := "alice", password := hashPassword (fun _ => ("C", "D")) "pw", enabled := false }], acls := [], passwordFile := none, aclFile := none } "alice" = Except.ok st2 ∧
      st2.users.find? (fun x => x.username = "alice") =
        some { username := "alice",
               password := hashPassword (fun _ => ("A", "B")) (hashPassword (fun _ => ("C", "D")) "pw"),
               enabled := true } := by
  exact (enableDisableRehashesHash (fun _ => ("A", "B")) (fun _ => ("C", "D")) "pw"
    { users := [{ username := "alice", password := hashPassword (fun _ => ("C", "D")) "pw", enabled := false }], acls := [], passwordFile := none, aclFile := none }
    { username := "alice", password := hashPassword (fun _ => ("C", "D")) "pw", enabled := false }
    (by decide) rfl (by decide)).1

lemma importUsers_redacted (ow : Bool) (users : List UserConfig) :
    ∀ acc : List UserConfig × Nat,
      (users.map (fun u => { u with password := "[REDACTED]" })).foldl (importUserStep ow) acc =
        acc := by
  induction users with
  | nil => intro acc; rfl
  | cons hd tl ih =>
    intro acc
    rw [List.map_cons, List.foldl_cons]
    have hstep : importUserStep ow acc { hd with password := "[REDACTED]" } = acc := by
      unfold importUserStep
      rw [if_pos rfl]
    rw [hstep]
    exact ih acc

lemma aclMatches_iff (a b : AclConfig) : aclMatches a b = true ↔ a = b := by
  cases a
  cases b
  simp [aclMatches, and_assoc]

lemma foldl_importAclStep_all_new (ow : Bool) :
    ∀ (rest : List AclConfig), ∀ (existing : List AclConfig) (n : Nat),
      (∀ a ∈ rest, ValidationUtils.validateAcl a = []) →
      (∀ a ∈ rest, a ∉ existing) →
      rest.Nodup →
      rest.foldl (importAclStep ow) (existing, n) = (existing ++ rest, n + rest.length) := by
  intro rest
  induction rest with
  | nil => intro existing n _ _ _; simp
  | cons hd tl ih =>
    intro existing n hv hnew hnd
    rw [List.foldl_cons]
    have hdup : ¬existing.any (fun a => aclMatches a hd) = true := by
      rw [List.any_eq_true]
      rintro ⟨x, hx, hm⟩
      rw [aclMatches_iff] at hm
      subst hm
      exact hnew x (by simp) hx
    have hstep : importAclStep ow (existing, n) hd = (existing ++ [hd], n + 1) := by
      unfold importAclStep
      rw [if_neg (fun hne => hne (hv hd (by simp))), if_neg hdup]
    have hnew2 : ∀ a ∈ tl, a ∉ existing ++ [hd] := by
      intro a ha
      rw [List.mem_append]
      push_neg
      refine ⟨hnew a (by simp [ha]), ?_⟩
      simp only [List.mem_singleton]
      intro he
      exact (List.nodup_cons.mp hnd).1 (he ▸ ha)
    rw [hstep, ih (existing ++ [hd]) (n + 1) (fun a ha => hv a (by simp [ha])) hnew2
      (List.Nodup.of_cons hnd)]
    rw [List.append_assoc, List.singleton_append, List.length_cons, Prod.mk.injEq]
    exact ⟨rfl, by omega⟩

/-- C8: exporting a store whose rules are all valid and duplicate-free
and importing the export into an empty store with overwrite: every
user record carries the redacted password and is skipped, so zero
users are imported and the user set stays empty; every rule is valid
and new, so the whole rule set is reconstructed and the returned
counts are exactly the numbers of records imported. -/
theorem exportImportRoundTrip (st : SecurityState)
    (hval : ∀ a ∈ st.acls, ValidationUtils.validateAcl a = [])
    (hnd : st.acls.Nodup) :
    (importSecurityConfig emptyState (exportSecurityConfig st) true).1.users = [] ∧
    (importSecurityConfig emptyState (exportSecurityConfig st) true).2.1 = 0 ∧
    (importSecurityConfig emptyState (exportSecurityConfig st) true).1.acls = st.acls ∧
    (importSecurityConfig emptyState (exportSecurityConfig st) true).2.2 = st.acls.length := by
  have ha := foldl_importAclStep_all_new true st.acls [] 0 hval (by simp) hnd
  simp only [importSecurityConfig, exportSecurityConfig, emptyState]
  rw [importUsers_redacted true st.users ([], 0)]
  norm_num
  rw [ha]
  norm_num
  by_cases hlen : 0 < st.acls.length
  · simp [hlen]
  · have hempty : st.acls = [] := List.length_eq_zero.mp (by omega)
    simp [hempty]

/-- C8 witness at a one-user, one-rule store. -/
theorem exportImportRoundTrip_witness :
    (importSecurityConfig emptyState (exportSecurityConfig
      { users := [{ username := "alice", password := "PBKDF2$sha256$10000$AA$BB", enabled := true }],
        acls := [{ username := "bob", clientid := "", topic := "t", access := "read" }],
        passwordFile := none, aclFile := none }) true).1.users = [] ∧
    (importSecurityConfig emptyState (exportSecurityConfig
      { users := [{ username := "alice", password := "PBKDF2$sha256$10000$AA$BB", enabled := true }],
        acls := [{ username := "bob", clientid := "", topic := "t", access := "read" }],
        passwordFile := none, aclFile := none }) true).2.1 = 0 ∧
    (importSecurityConfig emptyState (exportSecurityConfig
      { users := [{ username := "alice", password := "PBKDF2$sha256$10000$AA$BB", enabled := true }],
        acls := [{ username := "bob", clientid := "", topic := "t", access := "read" }],
        passwordFile := none, aclFile := none }) true).1.acls =
      [{ username := "bob", clientid := "", topic := "t", access := "read" }] ∧
    (importSecurityConfig emptyState (exportSecurityConfig
      { users := [{ username := "alice", password := "PBKDF2$sha256$10000$AA$BB", enabled := true }],
        acls := [{ username := "bob", clientid := "", topic := "t", access := "read" }],
        passwordFile := none, aclFile := none }) true).2.2 = 1 :=
  exportImportRoundTrip
    { users := [{ username := "alice", password := "PBKDF2$sha256$10000$AA$BB", enabled := true }],
      acls := [{ username := "bob", clientid := "", topic := "t", access := "read" }],
      passwordFile := none, aclFile := none }
    (by intro a ha; simp at ha; subst ha; decide) (by simp)

end SignalKMosquitto
